import Mathlib

/-!
# Verification of the azure-core credential-aware HTTP pipeline

A shallow embedding of the bearer-token authorization policy and the
surrounding pipeline machinery of `azure-core` (module
`azure.core.pipeline.policies`), together with proofs of the behavioural
properties recorded in the specification and exercised by
`sdk/core/azure-core/tests/test_authentication.py`.

The Python implementation module (`_authentication.py`, `_redirect.py`,
`_sensitive_header_cleanup_policy.py`) is not part of the source tree at
hand — only its test suite is — so every operational definition below is
modelled from the specification (sections 3, 4.1-4.4, 6-8), as the doc
comments record, and validated against the concrete expectations of the
test suite.

Time is modelled as an integer number of seconds (`Int`), requests and
responses as records over string headers, credentials as pure functions
from scopes and options to tokens, and the transport as a pure map from a
send index to an outcome.  Every credential invocation made by the policy
is recorded in an explicit log so that call-count properties (token
caching, single-retry contracts) become statements about list lengths.
-/

namespace AzureCore

/-- Modelled from the spec (§3 Data model, "Token"): an immutable value
holding an opaque bearer string, an absolute expiry instant, and an
optional absolute refresh-on instant.  This is the shape of both
`AccessToken` (no `refresh_on`) and `AccessTokenInfo` in the source. -/
structure Token where
  token : String
  expiresOn : Int
  refreshOn : Option Int := none
deriving DecidableEq, Repr

/-- Modelled from the spec (§6 External interfaces): the option bag passed
to `Credential.getToken` — a claims blob for claims challenges and the
continuous-access-evaluation flag. -/
structure TokenOptions where
  claims : Option String := none
  enableCae : Bool := false
deriving DecidableEq, Repr

/-- One recorded invocation of `Credential.getToken`: the scopes and the
options it was called with. -/
structure TokenRequest where
  scopes : List String
  options : TokenOptions
deriving DecidableEq, Repr

/-- Modelled from the spec (§6): a credential is consumed purely through
`getToken(scopes, options) -> Token`; here a deterministic function. -/
def Credential : Type := List String → TokenOptions → Token

/-- Modelled from the spec (§4.1 send, step 1): `needNewToken` is true iff
the cached token is absent, or `expiresOn <= now + 300` (the 5-minute
refresh skew), or `refreshOn` is present and `refreshOn <= now`. -/
def needNewToken (cachedToken : Option Token) (now : Int) : Bool :=
  match cachedToken with
  | none => true
  | some t =>
      decide (t.expiresOn ≤ now + 300) ||
        (match t.refreshOn with
         | some r => decide (r ≤ now)
         | none => false)

/-! ## Character-level string utilities

All string processing is done over `List Char` with structural recursion
so that every definition evaluates by kernel reduction on concrete
inputs. -/

/-- ASCII lower-casing of one character. -/
def lowerChar (c : Char) : Char :=
  if 'A' ≤ c ∧ c ≤ 'Z' then Char.ofNat (c.toNat + 32) else c

/-- Split a character list on a separator character; mirrors
`String.splitOn` with a one-character separator (`"ab,cd" ↦ [ab, cd]`,
always at least one piece). -/
def splitOnChar (sep : Char) : List Char → List (List Char)
  | [] => [[]]
  | c :: rest =>
      let r := splitOnChar sep rest
      if c = sep then [] :: r
      else
        match r with
        | [] => [[c]]
        | h :: t => (c :: h) :: t

/-- Join character-list pieces with a separator character (inverse of
`splitOnChar` on separator-free pieces). -/
def intercalChar (sep : Char) : List (List Char) → List Char
  | [] => []
  | [x] => x
  | x :: xs => x ++ sep :: intercalChar sep xs

/-- Whitespace for trimming challenge parameters. -/
def isSpaceChar (c : Char) : Bool :=
  c = ' ' || c = '\t' || c = '\n' || c = '\r'

/-- Strip leading and trailing whitespace. -/
def trimChars (cs : List Char) : List Char :=
  ((cs.dropWhile isSpaceChar).reverse.dropWhile isSpaceChar).reverse

/-! ## Case-insensitive header maps (spec §3: header keys case-insensitive) -/

/-- Header names compare case-insensitively. -/
def headerKeyEq (a b : String) : Bool :=
  a.toList.map lowerChar == b.toList.map lowerChar

/-- Look a header up by case-insensitive name. -/
def getHeader (hs : List (String × String)) (k : String) : Option String :=
  (hs.find? fun p => headerKeyEq p.1 k).map (·.2)

/-- Set a header, replacing any entry whose name matches case-insensitively. -/
def setHeader (hs : List (String × String)) (k v : String) : List (String × String) :=
  (hs.filter fun p => !headerKeyEq p.1 k) ++ [(k, v)]

/-- Remove every entry whose name matches case-insensitively. -/
def removeHeader (hs : List (String × String)) (k : String) : List (String × String) :=
  hs.filter fun p => !headerKeyEq p.1 k

/-! ## URLs, requests, responses, context -/

/-- A parsed URL origin: scheme, host and optional port (spec §4.3: origin
is scheme+host+port). -/
structure Url where
  scheme : String
  host : String
  port : Option Nat := none
deriving DecidableEq, Repr

/-- Parse the digits of a port suffix, if non-empty and all digits. -/
def parsePort (cs : List Char) : Option Nat :=
  if cs ≠ [] ∧ cs.all Char.isDigit then
    some (cs.foldl (fun n c => n * 10 + (c.toNat - 48)) 0)
  else none

/-- Split a URL's character list at the first `://`, returning the scheme
characters and the remainder. -/
def splitScheme : List Char → Option (List Char × List Char)
  | ':' :: '/' :: '/' :: rest => some ([], rest)
  | c :: rest =>
      match splitScheme rest with
      | some (a, b) => some (c :: a, b)
      | none => none
  | [] => none

/-- Parse a URL string of the shape `scheme://host[:port][/path...]` into
its origin components; anything after the first `/` or `?` past the
authority is ignored (only the origin matters to the policies). -/
def parseUrl (s : String) : Url :=
  match splitScheme s.toList with
  | some (sch, rest) =>
      let scheme := String.mk (sch.map lowerChar)
      let authority := rest.takeWhile fun c => !(c == '/' || c == '?')
      (match splitOnChar ':' authority with
       | [h, p] =>
           (match parsePort p with
            | some n => { scheme := scheme, host := String.mk h, port := some n }
            | none => { scheme := scheme, host := String.mk authority })
       | _ => { scheme := scheme, host := String.mk authority })
  | none => { scheme := "", host := s }

/-- Modelled from the spec (§3): a request is a method, a URL and a
case-insensitive header map (the body plays no role in the verified
properties). -/
structure Request where
  method : String
  url : Url
  headers : List (String × String) := []
deriving DecidableEq, Repr

/-- Modelled from the spec (§3): a response is a status code and a header
map. -/
structure Response where
  statusCode : Nat
  headers : List (String × String) := []
deriving DecidableEq, Repr

/-- Modelled from the spec (§4.2 side channel): the per-run request
context, holding the recognized per-call options — the `enforce_https`
override and the cross-origin-redirect marker exposed by the redirect
policy for the sensitive-header cleanup policy. -/
structure Context where
  enforceHttps : Option Bool := none
  insecureDomainChange : Bool := false
deriving DecidableEq, Repr

/-! ## WWW-Authenticate claims-challenge parsing (spec §4.1 onChallenge, §6) -/

/-- Split one `key=value` challenge parameter; the value may itself contain
`=` characters (base64 padding), so everything after the first `=` is the
value.  The key is trimmed of surrounding whitespace. -/
def splitKeyValue (part : List Char) : Option (List Char × List Char) :=
  match splitOnChar '=' part with
  | [] => none
  | [_] => none
  | k :: vs => some (trimChars k, intercalChar '=' vs)

/-- Strip one layer of surrounding double quotes from a trimmed challenge
parameter value. -/
def stripQuotes (cs : List Char) : List Char :=
  let t := trimChars cs
  if t.length ≥ 2 ∧ t.head? = some '"' ∧ t.getLast? = some '"' then
    (t.drop 1).dropLast
  else t

/-- The scheme tag opening a Bearer challenge: return the rest of the
header after a leading `Bearer `, if present. -/
def dropBearerTag : List Char → Option (List Char)
  | 'B' :: 'e' :: 'a' :: 'r' :: 'e' :: 'r' :: ' ' :: rest => some rest
  | _ => none

/-- Modelled from the spec (§4.1 onChallenge): parse a `WWW-Authenticate`
header value as a Bearer challenge; when it carries an
`error="insufficient_claims"` parameter, return the (still encoded) value
of its `claims="..."` parameter. -/
def parseClaimsChallenge (header : String) : Option String :=
  match dropBearerTag header.toList with
  | none => none
  | some rest =>
      let params := (splitOnChar ',' rest).filterMap splitKeyValue
      let params := params.map fun p => (p.1, stripQuotes p.2)
      if params.any
          (fun p => p.1 == "error".toList && p.2 == "insufficient_claims".toList) then
        (params.find? fun p => p.1 == "claims".toList).map fun p => String.mk p.2
      else none

/-- The 6-bit value of one base64url alphabet character. -/
def b64urlCharVal (c : Char) : Option Nat :=
  if 'A' ≤ c ∧ c ≤ 'Z' then some (c.toNat - 65)
  else if 'a' ≤ c ∧ c ≤ 'z' then some (c.toNat - 97 + 26)
  else if '0' ≤ c ∧ c ≤ '9' then some (c.toNat - 48 + 52)
  else if c = '-' then some 62
  else if c = '_' then some 63
  else none

/-- Reassemble 6-bit groups into bytes; a final group of 2 or 3 characters
encodes 1 or 2 bytes (the unpadded tail), a lone trailing character is
malformed. -/
def b64Groups : List Nat → Option (List Nat)
  | [] => some []
  | [_] => none
  | [a, b] => some [a * 4 + b / 16]
  | [a, b, c] => some [a * 4 + b / 16, b % 16 * 16 + c / 4]
  | a :: b :: c :: d :: rest =>
      match b64Groups rest with
      | none => none
      | some tail => some ([a * 4 + b / 16, b % 16 * 16 + c / 4, c % 4 * 64 + d] ++ tail)

/-- Modelled from the spec (§4.1 onChallenge): base64url-decode a string,
accepting missing `=` padding; bytes are read back as characters (the
decoded claims blobs are ASCII JSON). -/
def b64urlDecode (s : String) : Option String :=
  let chars := s.toList.filter (· ≠ '=')
  match chars.mapM b64urlCharVal with
  | none => none
  | some vals =>
      match b64Groups vals with
      | none => none
      | some bytes => some (String.mk (bytes.map Char.ofNat))

/-! ## BearerTokenAuthPolicy state and operations (spec §4.1) -/

/-- The mutable instance state of a `BearerTokenAuthPolicy`, together with
a log of every `Credential.getToken` invocation the policy has made
(earliest first), so that call-count properties are statements about the
log. -/
structure PolicyState where
  cachedToken : Option Token := none
  tokenCalls : List TokenRequest := []
deriving DecidableEq, Repr

/-- The construction-time configuration of a `BearerTokenAuthPolicy`
(spec §6): a scope set fixed at construction and the `enableCae` flag. -/
structure PolicyConfig where
  scopes : List String
  enableCae : Bool := false
deriving DecidableEq, Repr

/-- Modelled from the spec (§4.1 authorizeRequest): always call
`Credential.getToken(scopes, options)` without consulting the cache, store
the returned token as the cached token, and set the request's
`Authorization` header to `Bearer <token>`. -/
def authorizeRequest (cred : Credential) (st : PolicyState) (req : Request)
    (scopes : List String) (options : TokenOptions) : PolicyState × Request :=
  let tok := cred scopes options
  ({ cachedToken := some tok,
     tokenCalls := st.tokenCalls ++ [{ scopes := scopes, options := options }] },
   { req with headers := setHeader req.headers "Authorization" ("Bearer " ++ tok.token) })

/-- Modelled from the spec (§4.1 onChallenge, default implementation):
parse the `WWW-Authenticate` header for a Bearer challenge carrying
`error="insufficient_claims"` with a `claims="<base64url>"` value; if
found, base64url-decode the claims (accepting missing padding), call
`authorizeRequest(request, scopes, \x7bclaims\x7d)` and return true;
otherwise return false. -/
def onChallenge (cred : Credential) (cfg : PolicyConfig) (st : PolicyState)
    (req : Request) (resp : Response) : PolicyState × Request × Bool :=
  match getHeader resp.headers "WWW-Authenticate" with
  | none => (st, req, false)
  | some h =>
      match parseClaimsChallenge h with
      | none => (st, req, false)
      | some encoded =>
          match b64urlDecode encoded with
          | none => (st, req, false)
          | some claims =>
              let (st', req') :=
                authorizeRequest cred st req cfg.scopes { claims := some claims }
              (st', req', true)

/-! ## The send loop (spec §4.1 send, §4.2 PipelineExecutor) -/

/-- The error taxonomy visible to `Pipeline.run` callers in the verified
fragment (spec §7): the pre-send insecure-transport failure, a propagated
transport exception, and redirect-budget exhaustion. -/
inductive SendError where
  | insecureTransport
  | transportFailure (msg : String)
  | tooManyRedirects
deriving DecidableEq, Repr

/-- Modelled from the spec (§6): the transport is consumed purely through
`send(request) -> response`, which may fail with a connection-level error;
here a pure map from the index of the send (how many transport sends have
happened before it on this transport) to its outcome. -/
def Transport : Type := Nat → Except String Response

/-- What one policy layer reports upward: the response, plus the list of
requests that reached the transport below it (in send order), so that
"what went on the wire" is observable. -/
structure LayerResult where
  response : Response
  sentRequests : List Request
deriving DecidableEq, Repr

/-- The innermost layer: hand the request to the transport as-is. -/
def transportLayer (transport : Transport) (sent : Nat) (req : Request) :
    Except String LayerResult :=
  match transport sent with
  | .error e => .error e
  | .ok resp => .ok { response := resp, sentRequests := [req] }

/-- The outcome of one `BearerTokenAuthPolicy.send`: the updated policy
state, the response handed to the caller, the transport-level requests of
this run, and how many times `onChallenge` was invoked. -/
structure BearerResult where
  state : PolicyState
  response : Response
  sentRequests : List Request
  challengeInvocations : Nat
deriving DecidableEq, Repr

/-- Modelled from the spec (§4.1 send, steps 1-7), over an abstract next
layer (the rest of the chain down to the transport):
1-2. if `needNewToken`, call `getToken(scopes, options)` — options empty
     except for the construction-time `enableCae` flag — and cache;
3.   attach `Authorization: Bearer <token>`;
4.   if the request scheme is not https and the context does not set
     `enforce_https` explicitly to false, fail with the insecure-transport
     error before the next layer is invoked;
5.   delegate to the next layer;
6.   on a 401 response carrying `WWW-Authenticate`, invoke `onChallenge`
     once; if it returns true re-send once through the next layer and
     return that second outcome, otherwise return the 401 unchanged;
7.   otherwise return the response. -/
def bearerSendVia (cred : Credential) (cfg : PolicyConfig) (now : Int)
    (next : Nat → Request → Context → Except String LayerResult)
    (sent : Nat) (st : PolicyState) (req : Request) (ctx : Context) :
    Except SendError BearerResult :=
  let st1 : PolicyState :=
    if needNewToken st.cachedToken now then
      let options : TokenOptions := { enableCae := cfg.enableCae }
      { cachedToken := some (cred cfg.scopes options),
        tokenCalls := st.tokenCalls ++ [{ scopes := cfg.scopes, options := options }] }
    else st
  let tokenValue := (st1.cachedToken.map Token.token).getD ""
  let req1 : Request :=
    { req with headers := setHeader req.headers "Authorization" ("Bearer " ++ tokenValue) }
  if req1.url.scheme ≠ "https" ∧ ctx.enforceHttps ≠ some false then
    .error .insecureTransport
  else
    match next sent req1 ctx with
    | .error e => .error (.transportFailure e)
    | .ok r1 =>
        if r1.response.statusCode = 401 ∧
            (getHeader r1.response.headers "WWW-Authenticate").isSome then
          match onChallenge cred cfg st1 req1 r1.response with
          | (st2, req2, true) =>
              (match next (sent + r1.sentRequests.length) req2 ctx with
               | .error e => .error (.transportFailure e)
               | .ok r2 =>
                   .ok { state := st2, response := r2.response,
                         sentRequests := r1.sentRequests ++ r2.sentRequests,
                         challengeInvocations := 1 })
          | (st2, _, false) =>
              .ok { state := st2, response := r1.response,
                    sentRequests := r1.sentRequests, challengeInvocations := 1 }
        else
          .ok { state := st1, response := r1.response,
                sentRequests := r1.sentRequests, challengeInvocations := 0 }

/-- `BearerTokenAuthPolicy.send` when the policy sits directly above the
transport (the pipeline used by most of the authentication tests). -/
def bearerSend (cred : Credential) (cfg : PolicyConfig) (now : Int)
    (transport : Transport) (sent : Nat) (st : PolicyState) (req : Request)
    (ctx : Context) : Except SendError BearerResult :=
  bearerSendVia cred cfg now (fun n r _ => transportLayer transport n r) sent st req ctx

/-- `Pipeline.run` for a pipeline holding only the bearer policy above the
transport, with no per-call options: a fresh default context is created
for the run (spec §4.2: context does not survive across runs). -/
def pipelineRun (cred : Credential) (cfg : PolicyConfig) (now : Int)
    (transport : Transport) (sent : Nat) (st : PolicyState) (req : Request) :
    Except SendError BearerResult :=
  bearerSend cred cfg now transport sent st req {}

/-! ## RedirectPolicy and SensitiveHeaderCleanupPolicy (spec §4.3, §4.4) -/

/-- Modelled from the spec (§4.4): the cleanup policy's configuration — a
blocked header set defaulting to `Authorization` and
`x-ms-authorization-auxiliary`, and an opt-out flag. -/
structure CleanupConfig where
  blockedRedirectHeaders : List String := ["Authorization", "x-ms-authorization-auxiliary"]
  disableRedirectCleanup : Bool := false
deriving DecidableEq, Repr

/-- Modelled from the spec (§4.4): after a cross-origin redirect (signalled
through the context by the redirect policy), remove the blocked headers
from the outgoing request unless cleanup is disabled; otherwise leave the
request untouched. -/
def cleanupOnRequest (ccfg : CleanupConfig) (req : Request) (ctx : Context) : Request :=
  if ctx.insecureDomainChange && !ccfg.disableRedirectCleanup then
    { req with headers := ccfg.blockedRedirectHeaders.foldl removeHeader req.headers }
  else req

/-- The cleanup policy sitting directly above the transport. -/
def cleanupLayer (ccfg : CleanupConfig) (transport : Transport) (sent : Nat)
    (req : Request) (ctx : Context) : Except String LayerResult :=
  transportLayer transport sent (cleanupOnRequest ccfg req ctx)

/-- Modelled from the spec (§4.3): the redirect status codes. -/
def redirectStatuses : List Nat := [301, 302, 303, 307, 308]

/-- Modelled from the spec (§4.3): the method of the redirected request —
GET after 301/302/303 for non-GET/HEAD methods, the same method
otherwise. -/
def redirectMethod (status : Nat) (m : String) : String :=
  if (status = 301 ∨ status = 302 ∨ status = 303) ∧ m ≠ "GET" ∧ m ≠ "HEAD" then "GET"
  else m

/-- Two URLs share an origin when scheme, host and port agree (spec §4.3). -/
def sameOrigin (a b : Url) : Bool :=
  a.scheme == b.scheme && a.host == b.host && a.port == b.port

/-- Modelled from the spec (§4.3): `RedirectPolicy.send` for the chain
RedirectPolicy → BearerTokenAuthPolicy → SensitiveHeaderCleanupPolicy →
transport.  On a redirect response with a `location` header it decrements
the remaining-redirects budget (failing with `tooManyRedirects` at zero),
marks the context when the target origin differs from the current
request's origin, rebuilds the request at the new location, and re-enters
the chain from the position after itself. -/
def redirectSend (cred : Credential) (cfg : PolicyConfig) (ccfg : CleanupConfig)
    (now : Int) (transport : Transport) (budget : Nat) (sent : Nat)
    (st : PolicyState) (req : Request) (ctx : Context) :
    Except SendError BearerResult :=
  match bearerSendVia cred cfg now (fun n r c => cleanupLayer ccfg transport n r c)
      sent st req ctx with
  | .error e => .error e
  | .ok r =>
      match getHeader r.response.headers "location" with
      | some loc =>
          if r.response.statusCode ∈ redirectStatuses then
            match budget with
            | 0 => .error .tooManyRedirects
            | b + 1 =>
                let newUrl := parseUrl loc
                let ctx' :=
                  if sameOrigin req.url newUrl then ctx
                  else { ctx with insecureDomainChange := true }
                let req' : Request :=
                  { req with url := newUrl,
                             method := redirectMethod r.response.statusCode req.method }
                match redirectSend cred cfg ccfg now transport b
                    (sent + r.sentRequests.length) r.state req' ctx' with
                | .error e => .error e
                | .ok r2 =>
                    .ok { r2 with
                          sentRequests := r.sentRequests ++ r2.sentRequests,
                          challengeInvocations :=
                            r.challengeInvocations + r2.challengeInvocations }
          else .ok r
      | none => .ok r

/-- The claims blob that the default `onChallenge` would act on for a
given response: the decoded `claims` value of an `insufficient_claims`
Bearer challenge, when the response carries one. -/
def challengeClaims (resp : Response) : Option String :=
  match getHeader resp.headers "WWW-Authenticate" with
  | none => none
  | some h =>
      match parseClaimsChallenge h with
      | none => none
      | some enc => b64urlDecode enc

/-! ## Helper lemmas about header maps -/

theorem headerKeyEq_self (k : String) : headerKeyEq k k = true := by
  simp [headerKeyEq]

theorem find?_filter_not_eq_none (p : String × String → Bool)
    (hs : List (String × String)) :
    List.find? p (hs.filter fun x => !p x) = none := by
  induction hs with
  | nil => rfl
  | cons a t ih =>
      by_cases h : p a = true
      · simp [List.filter_cons, h, ih]
      · simp only [Bool.not_eq_true] at h
        simp [List.filter_cons, h, List.find?_cons, ih]

theorem find?_filter_eq_none (p q : String × String → Bool)
    (hs : List (String × String)) (h : hs.find? p = none) :
    (hs.filter q).find? p = none := by
  rw [List.find?_eq_none] at h ⊢
  intro x hx
  exact h x (List.mem_of_mem_filter hx)

theorem getHeader_setHeader (hs : List (String × String)) (k v : String) :
    getHeader (setHeader hs k v) k = some v := by
  unfold getHeader setHeader
  rw [List.find?_append, find?_filter_not_eq_none]
  simp [List.find?_cons, headerKeyEq_self k]

theorem getHeader_removeHeader (hs : List (String × String)) (k : String) :
    getHeader (removeHeader hs k) k = none := by
  unfold getHeader removeHeader
  rw [find?_filter_not_eq_none]
  rfl

theorem getHeader_removeHeader_of_none (hs : List (String × String)) (k k' : String)
    (h : getHeader hs k = none) :
    getHeader (removeHeader hs k') k = none := by
  unfold getHeader removeHeader at *
  rcases hf : List.find? (fun p => headerKeyEq p.1 k) hs with _ | v
  · rw [find?_filter_eq_none _ _ _ hf]
    rfl
  · rw [hf] at h
    simp at h

theorem sameOrigin_self (u : Url) : sameOrigin u u = true := by
  simp [sameOrigin]

/-! ## Helper lemmas about the default onChallenge -/

theorem onChallenge_success_eq (cred : Credential) (cfg : PolicyConfig)
    (st : PolicyState) (req : Request) (resp : Response) (claims : String)
    (h : challengeClaims resp = some claims) :
    onChallenge cred cfg st req resp =
      ({ cachedToken := some (cred cfg.scopes { claims := some claims }),
         tokenCalls := st.tokenCalls ++
           [{ scopes := cfg.scopes, options := { claims := some claims } }] },
       { req with headers := (setHeader req.headers "Authorization"
           ("Bearer " ++ (cred cfg.scopes { claims := some claims }).token)) },
       true) := by
  rcases h1 : getHeader resp.headers "WWW-Authenticate" with _ | hdr
  · simp [challengeClaims, h1] at h
  · rcases h2 : parseClaimsChallenge hdr with _ | enc
    · simp [challengeClaims, h1, h2] at h
    · have hd : b64urlDecode enc = some claims := by
        simpa [challengeClaims, h1, h2] using h
      simp [onChallenge, h1, h2, hd, authorizeRequest]

theorem onChallenge_failure_eq (cred : Credential) (cfg : PolicyConfig)
    (st : PolicyState) (req : Request) (resp : Response)
    (h : challengeClaims resp = none) :
    onChallenge cred cfg st req resp = (st, req, false) := by
  rcases h1 : getHeader resp.headers "WWW-Authenticate" with _ | hdr
  · simp [onChallenge, h1]
  · rcases h2 : parseClaimsChallenge hdr with _ | enc
    · simp [onChallenge, h1, h2]
    · have hd : b64urlDecode enc = none := by
        simpa [challengeClaims, h1, h2] using h
      simp [onChallenge, h1, h2, hd]

/-! ## Claim theorems -/

/-- C1: the bearer policy's token-refresh predicate holds exactly when the
cached token is absent, or the cached token's `expiresOn` is at most 300
seconds after the current time, or the cached token has a `refreshOn`
field with `refreshOn ≤ now` (even when `expiresOn` is far in the
future); in particular a token with `expiresOn = now + 299` needs refresh
while one with `expiresOn = now + 305` does not. -/
theorem needNewToken_spec (cached : Option Token) (now : Int) (v : String) :
    (needNewToken cached now = true ↔
      cached = none ∨
        ∃ t, cached = some t ∧
          (t.expiresOn ≤ now + 300 ∨ ∃ r, t.refreshOn = some r ∧ r ≤ now)) ∧
    needNewToken (some { token := v, expiresOn := now + 299 }) now = true ∧
    needNewToken (some { token := v, expiresOn := now + 305 }) now = false ∧
    (∀ e r : Int, r ≤ now →
      needNewToken (some { token := v, expiresOn := e, refreshOn := some r }) now = true) := by
  refine ⟨?_, ?_, ?_, ?_⟩
  · cases cached with
    | none => simp [needNewToken]
    | some t =>
        cases hr : t.refreshOn with
        | none => simp [needNewToken, hr]
        | some r => simp [needNewToken, hr]
  · simp [needNewToken]
  · simp [needNewToken]
  · intro e r hr
    simp [needNewToken, hr]

/-- Witness for C1: a token whose `expiresOn` is far in the future but
whose `refreshOn` instant has passed needs a refresh. -/
theorem needNewToken_spec_witness :
    needNewToken (some { token := "t", expiresOn := 1000000, refreshOn := some 999 })
      1000 = true :=
  (needNewToken_spec (some { token := "t", expiresOn := 1000000, refreshOn := some 999 })
    1000 "t").2.2.2 1000000 999 (by decide)

/-- C6: `authorizeRequest` always calls the credential's `getToken` with
the given scopes and options — even when a token is already cached (the
explicit cache-bypass entry point) — then stores the returned token as
the cached token and sets the request's Authorization header to
`Bearer <token value>`. -/
theorem authorizeRequest_spec (cred : Credential) (st : PolicyState) (req : Request)
    (scopes : List String) (options : TokenOptions) :
    (authorizeRequest cred st req scopes options).1.tokenCalls =
        st.tokenCalls ++ [{ scopes := scopes, options := options }] ∧
    (authorizeRequest cred st req scopes options).1.cachedToken =
        some (cred scopes options) ∧
    getHeader (authorizeRequest cred st req scopes options).2.headers "Authorization" =
        some ("Bearer " ++ (cred scopes options).token) := by
  refine ⟨rfl, rfl, ?_⟩
  simp [authorizeRequest, getHeader_setHeader]

/-- C2: for every 401 response whose `WWW-Authenticate` header is a Bearer
challenge containing `error="insufficient_claims"` and a
`claims="<base64url>"` parameter whose value decodes (padding possibly
missing), the default `onChallenge` base64url-decodes the claims, calls
`getToken` with the construction scopes and the decoded claims as an
option, stores the returned token as the cached token, sets the request's
Authorization header to `Bearer <new token>`, and returns true. -/
theorem onChallenge_claims_spec (cred : Credential) (cfg : PolicyConfig)
    (st : PolicyState) (req : Request) (resp : Response) (hdr enc claims : String)
    (hstatus : resp.statusCode = 401)
    (hhdr : getHeader resp.headers "WWW-Authenticate" = some hdr)
    (hch : parseClaimsChallenge hdr = some enc)
    (hdec : b64urlDecode enc = some claims) :
    (onChallenge cred cfg st req resp).2.2 = true ∧
    (onChallenge cred cfg st req resp).1.cachedToken =
        some (cred cfg.scopes { claims := some claims }) ∧
    (onChallenge cred cfg st req resp).1.tokenCalls =
        st.tokenCalls ++
          [{ scopes := cfg.scopes, options := { claims := some claims } }] ∧
    getHeader (onChallenge cred cfg st req resp).2.1.headers "Authorization" =
        some ("Bearer " ++ (cred cfg.scopes { claims := some claims }).token) := by
  have h : challengeClaims resp = some claims := by
    simp [challengeClaims, hhdr, hch, hdec]
  rw [onChallenge_success_eq cred cfg st req resp claims h]
  exact ⟨rfl, rfl, rfl, by simp [getHeader_setHeader]⟩

/-- A credential mirroring the claims-challenge caching test: it returns
the claims token when claims are supplied and the initial token
otherwise. -/
def c2Cred : Credential := fun _ opts =>
  if opts.claims.isSome then { token := "claims_token", expiresOn := 9999 }
  else { token := "initial_token", expiresOn := 9999 }

/-- The claims-challenge header of the caching test (base64url value
unpadded). -/
def c2Header : String :=
  "Bearer error=\"insufficient_claims\", claims=\"eyJhY2Nlc3NfdG9rZW4iOnsiZm9vIjoiYmFyIn19\""

/-- The decoded claims blob of the caching test. -/
def c2Claims : String := "\x7b\"access_token\":\x7b\"foo\":\"bar\"\x7d\x7d"

/-- The request of the claims-challenge caching test. -/
def c2Req : Request := { method := "GET", url := { scheme := "https", host := "example.com" } }

/-- The 401 challenge response of the claims-challenge caching test. -/
def c2Resp : Response := { statusCode := 401, headers := [("WWW-Authenticate", c2Header)] }

set_option maxRecDepth 40000 in
/-- Witness for C2 at the concrete challenge of the caching test: the
challenge succeeds, the claims token is cached, its getToken call is
logged with the decoded claims, and the Authorization header carries the
claims token. -/
theorem onChallenge_claims_spec_witness :
    (onChallenge c2Cred { scopes := ["scope"] } {} c2Req c2Resp).2.2 = true ∧
    (onChallenge c2Cred { scopes := ["scope"] } {} c2Req c2Resp).1.cachedToken =
        some (c2Cred ["scope"] { claims := some c2Claims }) ∧
    (onChallenge c2Cred { scopes := ["scope"] } {} c2Req c2Resp).1.tokenCalls =
        PolicyState.tokenCalls {} ++
          [{ scopes := ["scope"], options := { claims := some c2Claims } }] ∧
    getHeader (onChallenge c2Cred { scopes := ["scope"] } {} c2Req c2Resp).2.1.headers
        "Authorization" =
        some ("Bearer " ++ (c2Cred ["scope"] { claims := some c2Claims }).token) :=
  onChallenge_claims_spec c2Cred { scopes := ["scope"] } {} c2Req c2Resp c2Header
    "eyJhY2Nlc3NfdG9rZW4iOnsiZm9vIjoiYmFyIn19" c2Claims (by decide) (by decide)
    (by decide) (by decide)

/-- Evaluation of one bearer `send` when a refresh is needed, the security
check passes and the response is not a 401: the freshly acquired token is
cached and logged, the request goes out once with the new bearer header,
and the response is returned without a challenge. -/
theorem bearerSend_refresh_eq (cred : Credential) (cfg : PolicyConfig) (now : Int)
    (transport : Transport) (sent : Nat) (st : PolicyState) (req : Request)
    (ctx : Context) (resp : Response)
    (hn : needNewToken st.cachedToken now = true)
    (hsec : ¬(req.url.scheme ≠ "https" ∧ ctx.enforceHttps ≠ some false))
    (htr : transport sent = .ok resp) (hcode : resp.statusCode ≠ 401) :
    bearerSend cred cfg now transport sent st req ctx =
      .ok { state :=
              { cachedToken := some (cred cfg.scopes { enableCae := cfg.enableCae }),
                tokenCalls := st.tokenCalls ++
                  [{ scopes := cfg.scopes, options := { enableCae := cfg.enableCae } }] },
            response := resp,
            sentRequests := [{ req with headers := (setHeader req.headers "Authorization"
                ("Bearer " ++ (cred cfg.scopes { enableCae := cfg.enableCae }).token)) }],
            challengeInvocations := 0 } := by
  simp [bearerSend, bearerSendVia, transportLayer, hn, hsec, htr, hcode]

/-- Evaluation of one bearer `send` when the cached token is still fresh,
the security check passes and the response is not a 401: the state is
unchanged (no credential call), the request goes out once with the cached
bearer header, and the response is returned without a challenge. -/
theorem bearerSend_cached_eq (cred : Credential) (cfg : PolicyConfig) (now : Int)
    (transport : Transport) (sent : Nat) (st : PolicyState) (req : Request)
    (ctx : Context) (resp : Response)
    (hn : needNewToken st.cachedToken now = false)
    (hsec : ¬(req.url.scheme ≠ "https" ∧ ctx.enforceHttps ≠ some false))
    (htr : transport sent = .ok resp) (hcode : resp.statusCode ≠ 401) :
    bearerSend cred cfg now transport sent st req ctx =
      .ok { state := st,
            response := resp,
            sentRequests := [{ req with headers := (setHeader req.headers "Authorization"
                ("Bearer " ++ ((st.cachedToken.map Token.token).getD ""))) }],
            challengeInvocations := 0 } := by
  simp [bearerSend, bearerSendVia, transportLayer, hn, hsec, htr, hcode]

/-- C4: when the request scheme is not https and the per-request context
does not set `enforce_https` explicitly to false, the bearer policy fails
with the insecure-transport error for every transport whatsoever (the
request never reaches it); with `enforce_https = false` in the context the
same request succeeds; and an https request succeeds regardless of the
flag. -/
theorem bearer_enforces_https (cred : Credential) (cfg : PolicyConfig) (now : Int)
    (st : PolicyState) (req : Request) :
    (∀ ctx : Context, req.url.scheme ≠ "https" → ctx.enforceHttps ≠ some false →
      ∀ (transport : Transport) (sent : Nat),
        bearerSend cred cfg now transport sent st req ctx =
          .error .insecureTransport) ∧
    (∀ ctx : Context, ctx.enforceHttps = some false →
      ∀ (transport : Transport) (sent : Nat) (resp : Response),
        transport sent = .ok resp → resp.statusCode ≠ 401 →
        ∃ res, bearerSend cred cfg now transport sent st req ctx = .ok res) ∧
    (req.url.scheme = "https" →
      ∀ (ctx : Context) (transport : Transport) (sent : Nat) (resp : Response),
        transport sent = .ok resp → resp.statusCode ≠ 401 →
        ∃ res, bearerSend cred cfg now transport sent st req ctx = .ok res) := by
  refine ⟨?_, ?_, ?_⟩
  · intro ctx h1 h2 transport sent
    cases hn : needNewToken st.cachedToken now <;>
      simp [bearerSend, bearerSendVia, hn, h1, h2]
  · intro ctx hctx transport sent resp htr hcode
    cases hn : needNewToken st.cachedToken now <;>
      simp [bearerSend, bearerSendVia, transportLayer, hn, hctx, htr, hcode]
  · intro hscheme ctx transport sent resp htr hcode
    cases hn : needNewToken st.cachedToken now <;>
      simp [bearerSend, bearerSendVia, transportLayer, hn, hscheme, htr, hcode]

/-- A credential for the https-enforcement scenario. -/
def c4Cred : Credential := fun _ _ => { token := "***", expiresOn := 42 }

/-- The insecure request of the https-enforcement test. -/
def c4ReqHttp : Request := { method := "GET", url := { scheme := "http", host := "not.secure" } }

/-- The secure request of the https-enforcement test. -/
def c4ReqHttps : Request := { method := "GET", url := { scheme := "https", host := "secure" } }

/-- A transport answering every send with a 200 response. -/
def c4Transport : Transport := fun _ => .ok { statusCode := 200 }

/-- Witness for C4 at the https-enforcement test's inputs: the insecure
request fails with the insecure-transport error under the default
context, succeeds under `enforce_https = false`, and the https request
succeeds under `enforce_https = true`. -/
theorem bearer_enforces_https_witness :
    bearerSend c4Cred { scopes := ["scope"] } 0 c4Transport 0 {} c4ReqHttp {} =
      .error .insecureTransport ∧
    (∃ res, bearerSend c4Cred { scopes := ["scope"] } 0 c4Transport 0 {}
        c4ReqHttp { enforceHttps := some false } = .ok res) ∧
    (∃ res, bearerSend c4Cred { scopes := ["scope"] } 0 c4Transport 0 {}
        c4ReqHttps { enforceHttps := some true } = .ok res) :=
  ⟨(bearer_enforces_https c4Cred { scopes := ["scope"] } 0 {} c4ReqHttp).1 {}
      (by decide) (by decide) c4Transport 0,
   (bearer_enforces_https c4Cred { scopes := ["scope"] } 0 {} c4ReqHttp).2.1
      { enforceHttps := some false } rfl c4Transport 0 { statusCode := 200 } rfl
      (by decide),
   (bearer_enforces_https c4Cred { scopes := ["scope"] } 0 {} c4ReqHttps).2.2
      (by decide) { enforceHttps := some true } c4Transport 0 { statusCode := 200 } rfl
      (by decide)⟩

/-- C9: on the default send path (no per-call options) starting from a
fresh policy, the bearer policy calls `getToken` exactly once, with
exactly the scopes fixed at construction and otherwise-empty options;
when the policy was constructed with `enable_cae = true`, that call
additionally carries `enable_cae = true`.  The scope list in the logged
call is the construction scope list, unaltered. -/
theorem bearer_default_token_call (cred : Credential) (cfg : PolicyConfig)
    (now : Int) (transport : Transport) (sent : Nat) (req : Request)
    (ctx : Context) (resp : Response)
    (hsec : ¬(req.url.scheme ≠ "https" ∧ ctx.enforceHttps ≠ some false))
    (htr : transport sent = .ok resp) (hcode : resp.statusCode ≠ 401) :
    ∃ res, bearerSend cred cfg now transport sent {} req ctx = .ok res ∧
      res.state.tokenCalls =
        [{ scopes := cfg.scopes,
           options := { claims := none, enableCae := cfg.enableCae } }] :=
  ⟨_, bearerSend_refresh_eq cred cfg now transport sent {} req ctx resp rfl hsec htr hcode,
   rfl⟩

/-- Witness for C9: with `enable_cae` left false the single getToken call
carries the construction scope and fully-default options, and with
`enable_cae = true` it carries the `enable_cae` option. -/
theorem bearer_default_token_call_witness :
    (∃ res, bearerSend c4Cred { scopes := ["scope"] } 0 c4Transport 0 {} c4ReqHttps {} =
        .ok res ∧
      res.state.tokenCalls =
        [{ scopes := ["scope"], options := { claims := none, enableCae := false } }]) ∧
    (∃ res, bearerSend c4Cred { scopes := ["scope"], enableCae := true } 0 c4Transport 0
        {} c4ReqHttps {} = .ok res ∧
      res.state.tokenCalls =
        [{ scopes := ["scope"], options := { claims := none, enableCae := true } }]) :=
  ⟨bearer_default_token_call c4Cred { scopes := ["scope"] } 0 c4Transport 0 c4ReqHttps
      {} { statusCode := 200 } (by decide) rfl (by decide),
   bearer_default_token_call c4Cred { scopes := ["scope"], enableCae := true } 0
      c4Transport 0 c4ReqHttps {} { statusCode := 200 } (by decide) rfl (by decide)⟩

/-- C5: token reuse across runs.  Starting from a fresh pipeline, when the
credential's token expires one hour after the first run and the second
run happens while it is still outside the 300-second refresh skew, two
sequential runs log exactly one getToken call; when the credential's
token is already expired, each of the two runs logs a fresh getToken
call. -/
theorem token_reuse_across_runs (cfg : PolicyConfig) (req : Request)
    (transport : Transport) (now₁ now₂ : Int) (resp₀ resp₁ : Response)
    (hscheme : req.url.scheme = "https")
    (htr0 : transport 0 = .ok resp₀) (h0 : resp₀.statusCode ≠ 401)
    (htr1 : transport 1 = .ok resp₁) (h1 : resp₁.statusCode ≠ 401) :
    (∀ cred : Credential,
      (cred cfg.scopes { enableCae := cfg.enableCae }).expiresOn = now₁ + 3600 →
      (cred cfg.scopes { enableCae := cfg.enableCae }).refreshOn = none →
      now₂ + 300 < now₁ + 3600 →
      ∃ res₁ res₂,
        pipelineRun cred cfg now₁ transport 0 {} req = .ok res₁ ∧
        pipelineRun cred cfg now₂ transport 1 res₁.state req = .ok res₂ ∧
        res₂.state.tokenCalls.length = 1) ∧
    (∀ cred : Credential,
      (cred cfg.scopes { enableCae := cfg.enableCae }).expiresOn ≤ now₂ →
      ∃ res₁ res₂,
        pipelineRun cred cfg now₁ transport 0 {} req = .ok res₁ ∧
        pipelineRun cred cfg now₂ transport 1 res₁.state req = .ok res₂ ∧
        res₂.state.tokenCalls.length = 2) := by
  have hsec : ¬(req.url.scheme ≠ "https" ∧ ({} : Context).enforceHttps ≠ some false) :=
    fun hc => hc.1 hscheme
  constructor
  · intro cred hexp href hwin
    have hn2 : needNewToken (some (cred cfg.scopes { enableCae := cfg.enableCae }))
        now₂ = false := by
      simp only [needNewToken, href, Bool.or_false, decide_eq_false_iff_not, hexp]
      omega
    exact ⟨_, _,
      bearerSend_refresh_eq cred cfg now₁ transport 0 {} req {} resp₀ rfl hsec htr0 h0,
      bearerSend_cached_eq cred cfg now₂ transport 1 _ req {} resp₁ hn2 hsec htr1 h1,
      rfl⟩
  · intro cred hexp
    have hn2 : needNewToken (some (cred cfg.scopes { enableCae := cfg.enableCae }))
        now₂ = true := by
      simp only [needNewToken, Bool.or_eq_true, decide_eq_true_eq]
      exact Or.inl (by omega)
    exact ⟨_, _,
      bearerSend_refresh_eq cred cfg now₁ transport 0 {} req {} resp₀ rfl hsec htr0 h0,
      bearerSend_refresh_eq cred cfg now₂ transport 1 _ req {} resp₁ hn2 hsec htr1 h1,
      rfl⟩

/-- A credential whose token is good for one hour past time 1000. -/
def c5CredValid : Credential := fun _ _ => { token := "token", expiresOn := 4600 }

/-- A credential whose token is already expired at time 1000. -/
def c5CredExpired : Credential := fun _ _ => { token := "token", expiresOn := 1000 }

/-- The request of the token-caching test. -/
def c5Req : Request := { method := "GET", url := { scheme := "https", host := "spam.eggs" } }

/-- Witness for C5 at the token-caching test's inputs, both runs at time
1000: one getToken call with the one-hour token, two with the expired
one. -/
theorem token_reuse_across_runs_witness :
    (∃ res₁ res₂,
        pipelineRun c5CredValid { scopes := ["scope"] } 1000 c4Transport 0 {} c5Req =
          .ok res₁ ∧
        pipelineRun c5CredValid { scopes := ["scope"] } 1000 c4Transport 1 res₁.state
          c5Req = .ok res₂ ∧
        res₂.state.tokenCalls.length = 1) ∧
    (∃ res₁ res₂,
        pipelineRun c5CredExpired { scopes := ["scope"] } 1000 c4Transport 0 {} c5Req =
          .ok res₁ ∧
        pipelineRun c5CredExpired { scopes := ["scope"] } 1000 c4Transport 1 res₁.state
          c5Req = .ok res₂ ∧
        res₂.state.tokenCalls.length = 2) :=
  ⟨(token_reuse_across_runs { scopes := ["scope"] } c5Req c4Transport 1000 1000
      { statusCode := 200 } { statusCode := 200 } rfl rfl (by decide) rfl
      (by decide)).1 c5CredValid rfl rfl (by decide),
   (token_reuse_across_runs { scopes := ["scope"] } c5Req c4Transport 1000 1000
      { statusCode := 200 } { statusCode := 200 } rfl rfl (by decide) rfl
      (by decide)).2 c5CredExpired (by decide)⟩

/-- C7: when a 401 response carries a `WWW-Authenticate` header, the
bearer policy invokes `onChallenge` exactly once; when the default
`onChallenge` cannot complete the challenge (it returns false), no resend
occurs — exactly one transport send in the whole run — no error is
raised, and the original 401 response is returned unchanged as the run's
normal result. -/
theorem bearer_challenge_unhandled (cred : Credential) (cfg : PolicyConfig)
    (now : Int) (transport : Transport) (sent : Nat) (st : PolicyState)
    (req : Request) (ctx : Context) (resp : Response) (hdr : String)
    (hsec : ¬(req.url.scheme ≠ "https" ∧ ctx.enforceHttps ≠ some false))
    (htr : transport sent = .ok resp)
    (hcode : resp.statusCode = 401)
    (hhdr : getHeader resp.headers "WWW-Authenticate" = some hdr)
    (hfail : challengeClaims resp = none) :
    ∃ res, bearerSend cred cfg now transport sent st req ctx = .ok res ∧
      res.response = resp ∧ res.sentRequests.length = 1 ∧
      res.challengeInvocations = 1 := by
  cases hn : needNewToken st.cachedToken now <;>
  · simp [bearerSend, bearerSendVia, transportLayer, hn, hsec, htr, hcode, hhdr,
      onChallenge_failure_eq _ _ _ _ _ hfail]

/-- The Basic challenge of the cannot-complete-challenge test. -/
def c7Resp : Response :=
  { statusCode := 401, headers := [("WWW-Authenticate", "Basic realm=\"localhost\"")] }

/-- A transport answering every send with the Basic 401 challenge. -/
def c7Transport : Transport := fun _ => .ok c7Resp

set_option maxRecDepth 40000 in
/-- Witness for C7 at the cannot-complete-challenge test's inputs: the
Basic challenge is not an insufficient-claims challenge, so the run
returns the 401 itself after one send and one onChallenge invocation. -/
theorem bearer_challenge_unhandled_witness :
    ∃ res, bearerSend c5CredValid { scopes := ["scope"] } 1000 c7Transport 0 {}
        c5Req {} = .ok res ∧
      res.response = c7Resp ∧ res.sentRequests.length = 1 ∧
      res.challengeInvocations = 1 :=
  bearer_challenge_unhandled c5CredValid { scopes := ["scope"] } 1000 c7Transport 0 {}
    c5Req {} c7Resp "Basic realm=\"localhost\"" (by decide) rfl (by decide) (by decide)
    (by decide)

/-- C3: within a single send, the challenge retry happens at most once.
When the first response is a 401 carrying a claims challenge the default
`onChallenge` completes, the policy resends exactly once — two transport
sends in total, one `onChallenge` invocation — and whatever the second
send produces is final: a second response (even another 401 challenge) is
returned to the caller unchallenged, and a transport exception on the
resend propagates. -/
theorem bearer_single_retry (cred : Credential) (cfg : PolicyConfig) (now : Int)
    (transport : Transport) (st : PolicyState) (req : Request) (ctx : Context)
    (resp₀ : Response) (claims : String)
    (hsec : ¬(req.url.scheme ≠ "https" ∧ ctx.enforceHttps ≠ some false))
    (htr0 : transport 0 = .ok resp₀)
    (hcode : resp₀.statusCode = 401)
    (hcc : challengeClaims resp₀ = some claims) :
    (∀ resp₁, transport 1 = .ok resp₁ →
      ∃ res, bearerSend cred cfg now transport 0 st req ctx = .ok res ∧
        res.response = resp₁ ∧ res.sentRequests.length = 2 ∧
        res.challengeInvocations = 1) ∧
    (∀ e, transport 1 = .error e →
      bearerSend cred cfg now transport 0 st req ctx =
        .error (.transportFailure e)) := by
  have hhdr : (getHeader resp₀.headers "WWW-Authenticate").isSome = true := by
    rcases h1 : getHeader resp₀.headers "WWW-Authenticate" with _ | hdr
    · simp [challengeClaims, h1] at hcc
    · rfl
  constructor
  · intro resp₁ htr1
    cases hn : needNewToken st.cachedToken now <;>
    · simp [bearerSend, bearerSendVia, transportLayer, hn, hsec, htr0, hcode, hhdr,
        onChallenge_success_eq _ _ _ _ _ _ hcc, htr1]
  · intro e htr1
    cases hn : needNewToken st.cachedToken now <;>
    · simp [bearerSend, bearerSendVia, transportLayer, hn, hsec, htr0, hcode, hhdr,
        onChallenge_success_eq _ _ _ _ _ _ hcc, htr1]

set_option maxRecDepth 100000 in
/-- Witness for C3: a transport that answers every send with the same
claims challenge still produces exactly two sends and one onChallenge
invocation, the second 401 being returned to the caller. -/
theorem bearer_single_retry_witness :
    ∃ res, bearerSend c2Cred { scopes := ["scope"] } 1000
        (fun _ => .ok c2Resp) 0 {} c2Req {} = .ok res ∧
      res.response = c2Resp ∧ res.sentRequests.length = 2 ∧
      res.challengeInvocations = 1 :=
  (bearer_single_retry c2Cred { scopes := ["scope"] } 1000 (fun _ => .ok c2Resp) {}
      c2Req {} c2Resp c2Claims (by decide) rfl (by decide) (by decide)).1 c2Resp rfl

/-! ## Evaluation lemmas for the redirect pipeline -/

/-- Cleanup is a no-op when the context does not record a cross-origin
redirect. -/
theorem cleanupOnRequest_noop (ccfg : CleanupConfig) (q : Request) (ctx : Context)
    (h : ctx.insecureDomainChange = false) : cleanupOnRequest ccfg q ctx = q := by
  simp [cleanupOnRequest, h]

/-- With the default configuration, cleanup after a cross-origin redirect
removes exactly the `Authorization` and `x-ms-authorization-auxiliary`
headers. -/
theorem cleanupOnRequest_default_strips (q : Request) (ctx : Context)
    (h : ctx.insecureDomainChange = true) :
    cleanupOnRequest {} q ctx =
      { q with headers :=
          (removeHeader (removeHeader q.headers "Authorization")
            "x-ms-authorization-auxiliary") } := by
  simp [cleanupOnRequest, h, List.foldl]

/-- One bearer pass above the cleanup policy, refresh case: like
`bearerSend_refresh_eq` but with the outgoing request filtered by the
cleanup policy. -/
theorem bearerCleanup_refresh_eq (cred : Credential) (cfg : PolicyConfig)
    (ccfg : CleanupConfig) (now : Int) (transport : Transport) (sent : Nat)
    (st : PolicyState) (req : Request) (ctx : Context) (resp : Response)
    (hn : needNewToken st.cachedToken now = true)
    (hsec : ¬(req.url.scheme ≠ "https" ∧ ctx.enforceHttps ≠ some false))
    (htr : transport sent = .ok resp) (hcode : resp.statusCode ≠ 401) :
    bearerSendVia cred cfg now (fun k r c => cleanupLayer ccfg transport k r c)
        sent st req ctx =
      .ok { state :=
              { cachedToken := some (cred cfg.scopes { enableCae := cfg.enableCae }),
                tokenCalls := st.tokenCalls ++
                  [{ scopes := cfg.scopes, options := { enableCae := cfg.enableCae } }] },
            response := resp,
            sentRequests := [cleanupOnRequest ccfg
              { req with headers := (setHeader req.headers "Authorization"
                  ("Bearer " ++ (cred cfg.scopes { enableCae := cfg.enableCae }).token)) }
              ctx],
            challengeInvocations := 0 } := by
  simp [bearerSendVia, cleanupLayer, transportLayer, hn, hsec, htr, hcode]

/-- One bearer pass above the cleanup policy, cached case. -/
theorem bearerCleanup_cached_eq (cred : Credential) (cfg : PolicyConfig)
    (ccfg : CleanupConfig) (now : Int) (transport : Transport) (sent : Nat)
    (st : PolicyState) (req : Request) (ctx : Context) (resp : Response)
    (hn : needNewToken st.cachedToken now = false)
    (hsec : ¬(req.url.scheme ≠ "https" ∧ ctx.enforceHttps ≠ some false))
    (htr : transport sent = .ok resp) (hcode : resp.statusCode ≠ 401) :
    bearerSendVia cred cfg now (fun k r c => cleanupLayer ccfg transport k r c)
        sent st req ctx =
      .ok { state := st,
            response := resp,
            sentRequests := [cleanupOnRequest ccfg
              { req with headers := (setHeader req.headers "Authorization"
                  ("Bearer " ++ ((st.cachedToken.map Token.token).getD ""))) }
              ctx],
            challengeInvocations := 0 } := by
  simp [bearerSendVia, cleanupLayer, transportLayer, hn, hsec, htr, hcode]

/-- `redirectSend` when the inner chain's response carries no `location`
header: the result is returned as-is. -/
theorem redirectSend_no_redirect (cred : Credential) (cfg : PolicyConfig)
    (ccfg : CleanupConfig) (now : Int) (transport : Transport) (budget sent : Nat)
    (st : PolicyState) (req : Request) (ctx : Context) (r : BearerResult)
    (h : bearerSendVia cred cfg now (fun k q c => cleanupLayer ccfg transport k q c)
        sent st req ctx = .ok r)
    (hloc : getHeader r.response.headers "location" = none) :
    redirectSend cred cfg ccfg now transport budget sent st req ctx = .ok r := by
  conv_lhs => rw [redirectSend.eq_def]
  simp only [h, hloc]

/-- `redirectSend` across one 301 redirect hop: the inner chain's result is
combined with a recursive run at the redirect target, with the context
marked when the target's origin differs. -/
theorem redirectSend_redirect_step (cred : Credential) (cfg : PolicyConfig)
    (ccfg : CleanupConfig) (now : Int) (transport : Transport) (b sent : Nat)
    (st : PolicyState) (req : Request) (ctx : Context) (r : BearerResult)
    (loc : String)
    (h : bearerSendVia cred cfg now (fun k q c => cleanupLayer ccfg transport k q c)
        sent st req ctx = .ok r)
    (hloc : getHeader r.response.headers "location" = some loc)
    (hst : r.response.statusCode = 301) :
    redirectSend cred cfg ccfg now transport (b + 1) sent st req ctx =
      (match redirectSend cred cfg ccfg now transport b (sent + r.sentRequests.length)
          r.state
          { req with url := parseUrl loc,
                     method := redirectMethod r.response.statusCode req.method }
          (if sameOrigin req.url (parseUrl loc) then ctx
           else { ctx with insecureDomainChange := true }) with
       | .error e => .error e
       | .ok r2 =>
           .ok { r2 with
                 sentRequests := r.sentRequests ++ r2.sentRequests,
                 challengeInvocations :=
                   r.challengeInvocations + r2.challengeInvocations }) := by
  conv_lhs => rw [redirectSend.eq_def]
  simp only [h, hloc, hst]
  simp [redirectStatuses]

/-- C8: in the pipeline RedirectPolicy → BearerTokenAuthPolicy →
SensitiveHeaderCleanupPolicy with the default cleanup configuration, when
the first response is a 301 whose location parses to a different host, the
second request reaching the transport carries no Authorization header
(while the first carried the bearer header); when the location parses back
to the original URL (same host), the second request carries the same
bearer Authorization header as the first. -/
theorem redirect_strips_authorization (cred : Credential) (cfg : PolicyConfig)
    (now : Int) (n : Nat) (req : Request) (locD locS : String) (uD : Url)
    (resp₁ : Response) (trD trS : Transport)
    (hscheme : req.url.scheme = "https")
    (hpD : parseUrl locD = uD) (hscD : uD.scheme = "https")
    (hhost : uD.host ≠ req.url.host)
    (hpS : parseUrl locS = req.url)
    (htrD0 : trD 0 = .ok { statusCode := 301, headers := [("location", locD)] })
    (htrD1 : trD 1 = .ok resp₁)
    (htrS0 : trS 0 = .ok { statusCode := 301, headers := [("location", locS)] })
    (htrS1 : trS 1 = .ok resp₁)
    (hr1code : resp₁.statusCode ≠ 401)
    (hr1loc : getHeader resp₁.headers "location" = none) :
    (∃ res q1 q2,
      redirectSend cred cfg {} now trD (n + 1) 0 {} req {} = .ok res ∧
      res.sentRequests = [q1, q2] ∧
      getHeader q1.headers "Authorization" =
        some ("Bearer " ++ (cred cfg.scopes { enableCae := cfg.enableCae }).token) ∧
      getHeader q2.headers "Authorization" = none) ∧
    (∃ res q1 q2,
      redirectSend cred cfg {} now trS (n + 1) 0 {} req {} = .ok res ∧
      res.sentRequests = [q1, q2] ∧
      getHeader q1.headers "Authorization" =
        some ("Bearer " ++ (cred cfg.scopes { enableCae := cfg.enableCae }).token) ∧
      getHeader q2.headers "Authorization" = getHeader q1.headers "Authorization") := by
  have hsec0 : ¬(req.url.scheme ≠ "https" ∧ ({} : Context).enforceHttps ≠ some false) :=
    fun hc => hc.1 hscheme
  have hk : headerKeyEq "location" "location" = true := by decide
  constructor
  · have hloc301 : getHeader [("location", locD)] "location" = some locD := by
      simp [getHeader, List.find?_cons, hk]
    have hso : sameOrigin req.url uD = false := by
      have hb : (req.url.host == uD.host) = false := beq_eq_false_iff_ne.mpr (Ne.symm hhost)
      simp [sameOrigin, hb]
    have h1 := bearerCleanup_refresh_eq cred cfg {} now trD 0 {} req {}
        { statusCode := 301, headers := [("location", locD)] } rfl hsec0 htrD0 (by simp)
    rw [cleanupOnRequest_noop {} _ {} rfl] at h1
    rw [redirectSend_redirect_step cred cfg {} now trD n 0 {} req {} _ locD h1
      hloc301 rfl]
    rw [hpD]
    simp only [hso, Bool.false_eq_true, if_false]
    simp only [List.nil_append, List.length_cons, List.length_nil, Nat.zero_add]
    cases hn : needNewToken
        (some (cred cfg.scopes { claims := none, enableCae := cfg.enableCae })) now with
    | true =>
        have h2 := bearerCleanup_refresh_eq cred cfg {} now trD 1
            { cachedToken := some (cred cfg.scopes { claims := none, enableCae := cfg.enableCae }),
              tokenCalls := [{ scopes := cfg.scopes, options := { claims := none, enableCae := cfg.enableCae } }] }
            { method := redirectMethod 301 req.method, url := uD, headers := req.headers }
            { enforceHttps := none, insecureDomainChange := true } resp₁ hn
            (fun hc => hc.1 hscD) htrD1 hr1code
        rw [cleanupOnRequest_default_strips _ _ rfl] at h2
        rw [redirectSend_no_redirect cred cfg {} now trD n 1 _ _ _ _ h2 hr1loc]
        exact ⟨_, _, _, rfl, rfl, getHeader_setHeader _ _ _,
          getHeader_removeHeader_of_none _ _ _ (getHeader_removeHeader _ _)⟩
    | false =>
        have h2 := bearerCleanup_cached_eq cred cfg {} now trD 1
            { cachedToken := some (cred cfg.scopes { claims := none, enableCae := cfg.enableCae }),
              tokenCalls := [{ scopes := cfg.scopes, options := { claims := none, enableCae := cfg.enableCae } }] }
            { method := redirectMethod 301 req.method, url := uD, headers := req.headers }
            { enforceHttps := none, insecureDomainChange := true } resp₁ hn
            (fun hc => hc.1 hscD) htrD1 hr1code
        rw [cleanupOnRequest_default_strips _ _ rfl] at h2
        rw [redirectSend_no_redirect cred cfg {} now trD n 1 _ _ _ _ h2 hr1loc]
        exact ⟨_, _, _, rfl, rfl, getHeader_setHeader _ _ _,
          getHeader_removeHeader_of_none _ _ _ (getHeader_removeHeader _ _)⟩
  · have hloc301 : getHeader [("location", locS)] "location" = some locS := by
      simp [getHeader, List.find?_cons, hk]
    have h1 := bearerCleanup_refresh_eq cred cfg {} now trS 0 {} req {}
        { statusCode := 301, headers := [("location", locS)] } rfl hsec0 htrS0 (by simp)
    rw [cleanupOnRequest_noop {} _ {} rfl] at h1
    rw [redirectSend_redirect_step cred cfg {} now trS n 0 {} req {} _ locS h1
      hloc301 rfl]
    rw [hpS]
    simp only [sameOrigin_self, eq_self_iff_true, if_true]
    simp only [List.nil_append, List.length_cons, List.length_nil, Nat.zero_add]
    cases hn : needNewToken
        (some (cred cfg.scopes { claims := none, enableCae := cfg.enableCae })) now with
    | true =>
        have h2 := bearerCleanup_refresh_eq cred cfg {} now trS 1
            { cachedToken := some (cred cfg.scopes { claims := none, enableCae := cfg.enableCae }),
              tokenCalls := [{ scopes := cfg.scopes, options := { claims := none, enableCae := cfg.enableCae } }] }
            { method := redirectMethod 301 req.method, url := req.url, headers := req.headers }
            { enforceHttps := none, insecureDomainChange := false } resp₁ hn
            (fun hc => hc.1 hscheme) htrS1 hr1code
        rw [cleanupOnRequest_noop {} _ _ rfl] at h2
        rw [redirectSend_no_redirect cred cfg {} now trS n 1 _ _ _ _ h2 hr1loc]
        exact ⟨_, _, _, rfl, rfl, getHeader_setHeader _ _ _, rfl⟩
    | false =>
        have h2 := bearerCleanup_cached_eq cred cfg {} now trS 1
            { cachedToken := some (cred cfg.scopes { claims := none, enableCae := cfg.enableCae }),
              tokenCalls := [{ scopes := cfg.scopes, options := { claims := none, enableCae := cfg.enableCae } }] }
            { method := redirectMethod 301 req.method, url := req.url, headers := req.headers }
            { enforceHttps := none, insecureDomainChange := false } resp₁ hn
            (fun hc => hc.1 hscheme) htrS1 hr1code
        rw [cleanupOnRequest_noop {} _ _ rfl] at h2
        rw [redirectSend_no_redirect cred cfg {} now trS n 1 _ _ _ _ h2 hr1loc]
        exact ⟨_, _, _, rfl, rfl, getHeader_setHeader _ _ _, rfl⟩

/-- The original URL of the redirect tests. -/
def c8Url : Url := { scheme := "https", host := "localhost" }

/-- The cross-origin redirect target of the redirect tests. -/
def c8UrlD : Url := { scheme := "https", host := "localhost1" }

/-- The original request of the redirect tests. -/
def c8Req : Request := { method := "GET", url := c8Url }

/-- The final 200 response of the redirect tests. -/
def c8Resp200 : Response := { statusCode := 200 }

/-- A transport that first 301-redirects to a different host, then
answers 200. -/
def c8TrD : Transport := fun k =>
  if k = 0 then
    .ok { statusCode := 301, headers := [("location", "https://localhost1")] }
  else .ok c8Resp200

/-- A transport that first 301-redirects to the same host, then
answers 200. -/
def c8TrS : Transport := fun k =>
  if k = 0 then
    .ok { statusCode := 301, headers := [("location", "https://localhost")] }
  else .ok c8Resp200

set_option maxRecDepth 40000 in
/-- Witness for C8 at the redirect tests' inputs: with redirect budget 30,
the cross-host redirect produces a second transport request with no
Authorization header, and the same-host redirect retains the bearer
header of the first request. -/
theorem redirect_strips_authorization_witness :
    (∃ res q1 q2,
      redirectSend c5CredValid { scopes := ["scope"] } {} 0 c8TrD 30 0 {} c8Req {} =
        .ok res ∧
      res.sentRequests = [q1, q2] ∧
      getHeader q1.headers "Authorization" =
        some ("Bearer " ++ (c5CredValid ["scope"] { enableCae := false }).token) ∧
      getHeader q2.headers "Authorization" = none) ∧
    (∃ res q1 q2,
      redirectSend c5CredValid { scopes := ["scope"] } {} 0 c8TrS 30 0 {} c8Req {} =
        .ok res ∧
      res.sentRequests = [q1, q2] ∧
      getHeader q1.headers "Authorization" =
        some ("Bearer " ++ (c5CredValid ["scope"] { enableCae := false }).token) ∧
      getHeader q2.headers "Authorization" = getHeader q1.headers "Authorization") :=
  redirect_strips_authorization c5CredValid { scopes := ["scope"] } 0 29 c8Req
    "https://localhost1" "https://localhost" c8UrlD c8Resp200 c8TrD c8TrS
    rfl (by decide) rfl (by decide) (by decide) rfl rfl rfl rfl (by decide) rfl

end AzureCore
